import Mathlib

/-!
Verification of the compositional core of the `gemini-engine` terminal
rendering engine: the drawable / container object model and collision
queries (`src/elements/containers.rs`), the styled-character escape-code
emission (`src/elements/view/pixel/colchar/mod.rs`), and the 3D affine
transform pipeline (`src/elements3d/view3d/transform3d/mod.rs`).

Leaf modules not present in the sources (`Vec2D`/`Point`, `utils`,
`Modifier`/`Colour` display, `Vec3D`, `CachedRotation3D`) are modelled
from the specification, as marked on each definition.
-/

/-- Modelled from the spec: `Position: two integers (x, y); used as an
equality/hash key for collision membership.` The source file `vec2d` is
not included; componentwise addition is used by the collision query. -/
structure Vec2D where
  x : Int
  y : Int
deriving DecidableEq, Repr

/-- Modelled from the spec: componentwise addition of integer positions,
used as `element_pixel + offset` in `CollisionContainer`. -/
def Vec2D.add (a b : Vec2D) : Vec2D :=
  ⟨a.x + b.x, a.y + b.y⟩

/-- Modelled from the spec: the zero offset `Vec2D::ZERO`. -/
def Vec2D.ZERO : Vec2D := ⟨0, 0⟩

/-- Modelled from the spec: a colour value, RGB-constructible (the
`colour` source module is not included). -/
structure Colour where
  r : Nat
  g : Nat
  b : Nat
deriving DecidableEq, Repr

/-- Modelled from the spec: `Modifier: either none, or a colour value`;
the source additionally uses the reset value `Modifier::END`
(the `modifier` source module is not included). -/
inductive Modifier where
  | none : Modifier
  | colour (c : Colour) : Modifier
  | reset : Modifier
deriving DecidableEq, Repr

/-- The source constant `Modifier::END`, the escape code that closes a
styled run. -/
def Modifier.END : Modifier := Modifier.reset

/-- Modelled from the spec: the escape bytes a `Modifier` emits when
displayed. `Modifier::None` emits nothing; a colour emits an ANSI
truecolor start code; `Modifier::END` emits the ANSI reset code. The
output string is modelled as a list of characters. -/
def Modifier.display : Modifier → List Char
  | Modifier.none => []
  | Modifier.colour c =>
      "\x1b[38;2;".data ++ (Nat.repr c.r).data ++ ";".data ++
        (Nat.repr c.g).data ++ ";".data ++ (Nat.repr c.b).data ++ "m".data
  | Modifier.reset => "\x1b[0m".data

/-- From `colchar/mod.rs`: a `ColChar` is a display character together
with a `Modifier`. -/
structure ColChar where
  text_char : Char
  modifier : Modifier
deriving DecidableEq, Repr

/-- From `colchar/mod.rs`: `ColChar::SOLID`. -/
def ColChar.SOLID : ColChar := ⟨'*', Modifier.none⟩

/-- From `colchar/mod.rs`: `ColChar::BACKGROUND`. -/
def ColChar.BACKGROUND : ColChar := ⟨'.', Modifier.none⟩

/-- From `colchar/mod.rs`: `ColChar::EMPTY`. -/
def ColChar.EMPTY : ColChar := ⟨' ', Modifier.none⟩

/-- From `colchar/mod.rs`: `ColChar::VOID`. -/
def ColChar.VOID : ColChar := ⟨'-', Modifier.none⟩

/-- From `colchar/mod.rs`: `ColChar::with_char`. -/
def ColChar.with_char (c : ColChar) (text_char : Char) : ColChar :=
  ⟨text_char, c.modifier⟩

/-- From `colchar/mod.rs`: `ColChar::with_mod`. -/
def ColChar.with_mod (c : ColChar) (modifier : Modifier) : ColChar :=
  ⟨c.text_char, modifier⟩

/-- From `colchar/mod.rs`: `ColChar::with_colour`. -/
def ColChar.with_colour (c : ColChar) (colour : Colour) : ColChar :=
  ⟨c.text_char, Modifier.colour colour⟩

/-- From `colchar/mod.rs`: `ColChar::display_with_prev_and_next`.
Returns the emitted bytes for one cell given the previous and next
cells' modifiers: the start code is replaced by `Modifier::None` when
the previous modifier equals this cell's, and the end code `Modifier::END`
is replaced by `Modifier::None` when the next modifier equals this
cell's. The unused `index` argument of the source is kept. -/
def ColChar.display_with_prev_and_next (c : ColChar)
    (prev_mod next_mod : Option Modifier) (index : Nat) : List Char :=
  let modifier := if prev_mod = some c.modifier then Modifier.none else c.modifier
  let e := if next_mod = some c.modifier then Modifier.none else Modifier.END
  modifier.display ++ [c.text_char] ++ e.display

/-- From `colchar/mod.rs`: `ColChar::write_with_prev_and_next`, which
appends the same emission as `display_with_prev_and_next` to an output
buffer `o`. -/
def ColChar.write_with_prev_and_next (c : ColChar) (o : List Char)
    (prev_mod next_mod : Option Modifier) (index : Nat) : List Char :=
  let modifier := if prev_mod = some c.modifier then Modifier.none else c.modifier
  let e := if next_mod = some c.modifier then Modifier.none else Modifier.END
  o ++ modifier.display ++ [c.text_char] ++ e.display

/-- Modelled from the spec: `Point: (Position, Style) — immutable value`
(the point source module is not included). -/
structure Point where
  pos : Vec2D
  fill_char : ColChar
deriving DecidableEq, Repr

/-- Modelled from the spec: `Point` construction from a position and a
`ColChar`, as used by `PixelContainer::plot`. -/
def Point.new (pos : Vec2D) (fill_char : ColChar) : Point :=
  ⟨pos, fill_char⟩

/-- Modelled from the spec: `utils::points_to_pixels`, pairing every
coordinate of a list with one shared `ColChar`
(used by `PixelContainer::append_points`). -/
def points_to_pixels (points : List Vec2D) (fill_char : ColChar) : List Point :=
  points.map (fun p => Point.new p fill_char)

/-- Modelled from the spec: `utils::pixels_to_points`, reducing a list of
`Point`s to their positions, style discarded
(used by `CollisionContainer::will_overlap_element`). -/
def pixels_to_points (pixels : List Point) : List Vec2D :=
  pixels.map Point.pos

/-- The `ViewElement` trait: one operation producing the ordered sequence
of currently active `Point`s. -/
class ViewElement (T : Type) where
  active_pixels : T → List Point

export ViewElement (active_pixels)

/-- A trait object `&dyn ViewElement`: since `active_pixels` is a pure
function of the referent's current state, a borrowed drawable is
represented by its `active_pixels` method's value. -/
structure DynViewElement where
  pixels : List Point

instance : ViewElement DynViewElement where
  active_pixels e := e.pixels

/-- From `containers.rs`: `VisibilityToggle`, a wrapped element plus a
`visible` flag. -/
structure VisibilityToggle (T : Type) [ViewElement T] where
  element : T
  visible : Bool

/-- From `containers.rs`: `VisibilityToggle::new`. -/
def VisibilityToggle.new {T : Type} [ViewElement T] (element : T)
    (visible : Bool) : VisibilityToggle T :=
  ⟨element, visible⟩

instance {T : Type} [ViewElement T] : ViewElement (VisibilityToggle T) where
  active_pixels v :=
    match v.visible with
    | true => active_pixels v.element
    | false => []

/-- From `containers.rs`: `PixelContainer`, an owned growable ordered
list of `Point`s. -/
structure PixelContainer where
  pixels : List Point
deriving DecidableEq, Repr

namespace PixelContainer

/-- From `containers.rs`: `PixelContainer::new`. -/
def new : PixelContainer := ⟨[]⟩

/-- From `containers.rs`: `PixelContainer::push`, appending one point. -/
def push (c : PixelContainer) (pixel : Point) : PixelContainer :=
  ⟨c.pixels ++ [pixel]⟩

/-- From `containers.rs`: `PixelContainer::append`, which moves all the
pixels of the source vector in, leaving the source empty. The mutation
of both arguments is modelled by returning the updated container
together with the drained source. -/
def append (c : PixelContainer) (pixels : List Point) :
    PixelContainer × List Point :=
  (⟨c.pixels ++ pixels⟩, [])

/-- From `containers.rs`: `PixelContainer::append_points`. -/
def append_points (c : PixelContainer) (points : List Vec2D)
    (fill_char : ColChar) : PixelContainer :=
  (c.append (points_to_pixels points fill_char)).1

/-- From `containers.rs`: `PixelContainer::plot`. -/
def plot (c : PixelContainer) (pos : Vec2D) (ch : ColChar) : PixelContainer :=
  c.push (Point.new pos ch)

/-- From `containers.rs`: `PixelContainer::blit`, appending another
drawable's active pixels. -/
def blit {E : Type} [ViewElement E] (c : PixelContainer) (element : E) :
    PixelContainer :=
  (c.append (active_pixels element)).1

/-- From `containers.rs`: `impl From<Vec<Point>> for PixelContainer`. -/
def fromPoints (pixels : List Point) : PixelContainer := ⟨pixels⟩

/-- From `containers.rs`: `impl From<Vec<(Vec2D, ColChar)>>`, each pair
supplying its own style. -/
def fromPairs (pixels : List (Vec2D × ColChar)) : PixelContainer :=
  ⟨pixels.map (fun x => Point.new x.1 x.2)⟩

end PixelContainer

instance : ViewElement PixelContainer where
  active_pixels c := c.pixels

/-- From `containers.rs`: `CollisionContainer`, holding borrowed
references to arbitrary drawables. -/
structure CollisionContainer where
  elements : List DynViewElement

namespace CollisionContainer

/-- From `containers.rs`: `CollisionContainer::new`. -/
def new : CollisionContainer := ⟨[]⟩

/-- From `containers.rs`: `CollisionContainer::push`. -/
def push {T : Type} [ViewElement T] (c : CollisionContainer) (element : T) :
    CollisionContainer :=
  ⟨c.elements ++ [⟨active_pixels element⟩]⟩

end CollisionContainer

instance : ViewElement CollisionContainer where
  active_pixels c := c.elements.flatMap (fun e => active_pixels e)

namespace CollisionContainer

/-- From `containers.rs`: `CollisionContainer::will_overlap_element`:
reduce the container's contents to positions, then report whether some
candidate position plus the offset occurs among them. -/
def will_overlap_element {T : Type} [ViewElement T] (c : CollisionContainer)
    (element : T) (offset : Vec2D) : Bool :=
  let collision_pixels := pixels_to_points (active_pixels c)
  (pixels_to_points (active_pixels element)).any
    (fun element_pixel => collision_pixels.contains (element_pixel.add offset))

/-- From `containers.rs`: `CollisionContainer::overlaps_element`, the
same query with the zero offset. -/
def overlaps_element {T : Type} [ViewElement T] (c : CollisionContainer)
    (element : T) : Bool :=
  c.will_overlap_element element Vec2D.ZERO

end CollisionContainer

/-- Modelled from the spec: `Vec3D: three floating-point components;
supports componentwise add/subtract/multiply and scalar multiply` (the
`vec3d` source module is not included). Components are modelled as real
numbers. -/
structure Vec3D where
  x : ℝ
  y : ℝ
  z : ℝ

/-- Modelled from the spec: componentwise addition of `Vec3D`. -/
def Vec3D.add (a b : Vec3D) : Vec3D :=
  ⟨a.x + b.x, a.y + b.y, a.z + b.z⟩

/-- Modelled from the spec: componentwise multiplication of `Vec3D`. -/
def Vec3D.mul (a b : Vec3D) : Vec3D :=
  ⟨a.x * b.x, a.y * b.y, a.z * b.z⟩

/-- The source constant `Vec3D::ZERO`. -/
def Vec3D.ZERO : Vec3D := ⟨0, 0, 0⟩

/-- The source constant `Vec3D::ONE`. -/
def Vec3D.ONE : Vec3D := ⟨1, 1, 1⟩

@[ext] theorem Vec3D.ext {a b : Vec3D}
    (hx : a.x = b.x) (hy : a.y = b.y) (hz : a.z = b.z) : a = b := by
  cases a; cases b; simp_all

/-- Modelled from the spec: `CachedRotation3D` holds the six precomputed
trigonometric values (sine and cosine of each of the three rotation
angles) for one rotation (the `cached_rotation` source module is not
included). -/
structure CachedRotation3D where
  sin_x : ℝ
  cos_x : ℝ
  sin_y : ℝ
  cos_y : ℝ
  sin_z : ℝ
  cos_z : ℝ

/-- Modelled from the spec: `CachedRotation3D::new` computes the six
trigonometric values of the given rotation angles once. -/
noncomputable def CachedRotation3D.new (rotation : Vec3D) : CachedRotation3D :=
  ⟨Real.sin rotation.x, Real.cos rotation.x,
   Real.sin rotation.y, Real.cos rotation.y,
   Real.sin rotation.z, Real.cos rotation.z⟩

/-- Modelled from the spec: `CachedRotation3D::rotate` applies the fixed
sequential composition of three elemental rotations, around the X axis,
then Y, then Z, reusing the cached trigonometric values. -/
def CachedRotation3D.rotate (r : CachedRotation3D) (v : Vec3D) : Vec3D :=
  let v1 : Vec3D := ⟨v.x,
                     v.y * r.cos_x - v.z * r.sin_x,
                     v.y * r.sin_x + v.z * r.cos_x⟩
  let v2 : Vec3D := ⟨v1.x * r.cos_y + v1.z * r.sin_y,
                     v1.y,
                     -v1.x * r.sin_y + v1.z * r.cos_y⟩
  let v3 : Vec3D := ⟨v2.x * r.cos_z - v2.y * r.sin_z,
                     v2.x * r.sin_z + v2.y * r.cos_z,
                     v2.z⟩
  v3

/-- From `transform3d/mod.rs`: `Transform3D`, a translation, a rotation
in radians per axis, and a scale. -/
structure Transform3D where
  translation : Vec3D
  rotation : Vec3D
  scale : Vec3D

namespace Transform3D

/-- From `transform3d/mod.rs`: `Transform3D::new_trs`. -/
def new_trs (translation rotation scale : Vec3D) : Transform3D :=
  ⟨translation, rotation, scale⟩

/-- From `transform3d/mod.rs`: `Transform3D::new_tr`. -/
def new_tr (translation rotation : Vec3D) : Transform3D :=
  ⟨translation, rotation, Vec3D.ONE⟩

/-- From `transform3d/mod.rs`: `Transform3D::new_t`. -/
def new_t (translation : Vec3D) : Transform3D :=
  ⟨translation, Vec3D.ZERO, Vec3D.ONE⟩

/-- From `transform3d/mod.rs`: `Transform3D::new_r`. -/
def new_r (rotation : Vec3D) : Transform3D :=
  ⟨Vec3D.ZERO, rotation, Vec3D.ONE⟩

/-- From `transform3d/mod.rs`: `Transform3D::DEFAULT`. -/
def DEFAULT : Transform3D := new_trs Vec3D.ZERO Vec3D.ZERO Vec3D.ONE

/-- From `transform3d/mod.rs`: `Transform3D::apply_to`: build the cached
rotation once for the batch, then map each vertex through scale, rotate,
translate. -/
noncomputable def apply_to (t : Transform3D) (vertices : List Vec3D) : List Vec3D :=
  let rotation := CachedRotation3D.new t.rotation
  vertices.map (fun v =>
    let rhs := v
    let rhs := rhs.mul t.scale
    let rhs := rotation.rotate rhs
    let rhs := rhs.add t.translation
    rhs)

/-- From `transform3d/mod.rs`: `Transform3D::rotate`, rotating one
vector by this transform's rotation field. -/
noncomputable def rotate (t : Transform3D) (value : Vec3D) : Vec3D :=
  let rotation := CachedRotation3D.new t.rotation
  rotation.rotate value

/-- From `transform3d/mod.rs`: `impl Mul<Transform3D> for Transform3D`:
add translations, add rotations, multiply scales. -/
def mul (a rhs : Transform3D) : Transform3D :=
  new_trs (a.translation.add rhs.translation)
    (a.rotation.add rhs.rotation)
    (a.scale.mul rhs.scale)

/-- From `transform3d/mod.rs`: `impl Mul<Vec3D> for Transform3D`: scale,
rotate via `Transform3D::rotate`, then translate the single vertex. -/
noncomputable def mulVec (t : Transform3D) (v : Vec3D) : Vec3D :=
  let rhs := v
  let rhs := rhs.mul t.scale
  let rhs := t.rotate rhs
  let rhs := rhs.add t.translation
  rhs

@[ext] theorem ext_trs {a b : Transform3D}
    (ht : a.translation = b.translation) (hr : a.rotation = b.rotation)
    (hs : a.scale = b.scale) : a = b := by
  cases a; cases b; simp_all

end Transform3D

/-- Auxiliary: componentwise integer addition with the zero offset is the
identity, relating `overlaps_element` to the unshifted overlap test. -/
theorem Vec2D.add_ZERO (a : Vec2D) : a.add Vec2D.ZERO = a := by
  cases a; simp [Vec2D.add, Vec2D.ZERO]

/-- Auxiliary: folding `PixelContainer::blit` over a list of drawables
appends their active pixels, in order, to the accumulator's pixels. -/
theorem PixelContainer.blit_foldl (c : PixelContainer)
    (children : List DynViewElement) :
    (children.foldl (fun a e => a.blit e) c).pixels
      = c.pixels ++ children.flatMap (fun e => active_pixels e) := by
  induction children generalizing c with
  | nil => simp
  | cons e rest ih =>
      rw [List.foldl_cons, ih]
      simp [PixelContainer.blit, PixelContainer.append]

/-- Auxiliary: folding `CollisionContainer::push` over a list of
drawables records their pixel lists in push order. -/
theorem CollisionContainer.push_foldl (c : CollisionContainer)
    (children : List DynViewElement) :
    (children.foldl (fun a e => a.push e) c).elements
      = c.elements ++ children.map (fun e => (⟨active_pixels e⟩ : DynViewElement)) := by
  induction children generalizing c with
  | nil => simp
  | cons e rest ih =>
      rw [List.foldl_cons, ih]
      simp [CollisionContainer.push]

/-- Claim C1: for a `PixelContainer` built by blitting children in order,
and for a `CollisionContainer` holding elements in push order, the
container's `active_pixels()` is the point-by-point concatenation of the
parts' `active_pixels()` in part-iteration order (each part's internal
order preserved), and its length is the sum of the parts' lengths. -/
theorem containers_concatenation_law :
    ∀ (children : List DynViewElement),
      active_pixels (children.foldl (fun a e => a.blit e) PixelContainer.new)
        = children.flatMap (fun e => active_pixels e)
      ∧ (active_pixels (children.foldl (fun a e => a.blit e) PixelContainer.new)).length
        = (children.map (fun e => (active_pixels e).length)).sum
      ∧ active_pixels (children.foldl (fun a e => a.push e) CollisionContainer.new)
        = children.flatMap (fun e => active_pixels e)
      ∧ (active_pixels (children.foldl (fun a e => a.push e) CollisionContainer.new)).length
        = (children.map (fun e => (active_pixels e).length)).sum := by
  intro children
  have hblit : active_pixels (children.foldl (fun a e => a.blit e) PixelContainer.new)
      = children.flatMap (fun e => active_pixels e) := by
    show (children.foldl (fun a e => a.blit e) PixelContainer.new).pixels = _
    rw [PixelContainer.blit_foldl]
    simp [PixelContainer.new]
  have hpush : active_pixels (children.foldl (fun a e => a.push e) CollisionContainer.new)
      = children.flatMap (fun e => active_pixels e) := by
    show (children.foldl (fun a e => a.push e) CollisionContainer.new).elements.flatMap _ = _
    rw [CollisionContainer.push_foldl]
    simp only [CollisionContainer.new, List.nil_append]
    clear hblit
    induction children with
    | nil => rfl
    | cons e rest ih =>
        rw [List.map_cons, List.flatMap_cons, List.flatMap_cons, ih]
        rfl
  refine ⟨hblit, ?_, hpush, ?_⟩ <;>
    simp [hblit, hpush, List.length_flatMap, Function.comp_def]

/-- Claim C2: `will_overlap_element(candidate, offset)` is true iff some
active position of the candidate, shifted by the offset, equals some
active position of the container's contents, styles ignored entirely;
`overlaps_element(candidate)` is the same test with the zero offset. -/
theorem collision_overlap_iff :
    ∀ {T : Type} [inst : ViewElement T] (c : CollisionContainer) (element : T)
      (offset : Vec2D),
      (c.will_overlap_element element offset = true ↔
        ∃ p ∈ active_pixels element, ∃ q ∈ active_pixels c,
          p.pos.add offset = q.pos)
      ∧ (c.overlaps_element element = true ↔
        ∃ p ∈ active_pixels element, ∃ q ∈ active_pixels c,
          p.pos = q.pos) := by
  intro T inst c element offset
  have key : ∀ off : Vec2D, (c.will_overlap_element element off = true ↔
      ∃ p ∈ active_pixels element, ∃ q ∈ active_pixels c,
        p.pos.add off = q.pos) := by
    intro off
    unfold CollisionContainer.will_overlap_element
    simp only [pixels_to_points, List.any_eq_true, List.mem_map]
    constructor
    · rintro ⟨x, ⟨p, hp, rfl⟩, hcont⟩
      have hx : p.pos.add off ∈ (active_pixels c).map Point.pos := by
        simpa using hcont
      obtain ⟨q, hq, hq2⟩ := List.mem_map.mp hx
      exact ⟨p, hp, q, hq, hq2.symm⟩
    · rintro ⟨p, hp, q, hq, hpq⟩
      refine ⟨p.pos, ⟨p, hp, rfl⟩, ?_⟩
      simp only [List.contains_iff_exists_mem_beq] at *
      exact ⟨q.pos, List.mem_map_of_mem Point.pos hq, by simp [hpq]⟩
  refine ⟨key offset, ?_⟩
  unfold CollisionContainer.overlaps_element
  rw [key Vec2D.ZERO]
  simp [Vec2D.add_ZERO]

/-- Claim C3: `apply_to` maps each vertex independently through the
fixed sequence scale, then rotate (the X-then-Y-then-Z elemental
composition behind `Transform3D::rotate`), then translate, returning a
list of equal length and order; and the transform with translation
(1,0,0), no rotation and scale (2,2,2) sends the single vertex (1,1,1)
to (3,2,2). -/
theorem transform_apply_to_pipeline :
    (∀ (t : Transform3D) (vertices : List Vec3D),
        t.apply_to vertices
          = vertices.map (fun v => (t.rotate (v.mul t.scale)).add t.translation)
        ∧ (t.apply_to vertices).length = vertices.length)
    ∧ Transform3D.apply_to (Transform3D.new_trs ⟨1, 0, 0⟩ ⟨0, 0, 0⟩ ⟨2, 2, 2⟩)
        [⟨1, 1, 1⟩] = [⟨3, 2, 2⟩] := by
  constructor
  · intro t vertices
    exact ⟨rfl, by simp [Transform3D.apply_to]⟩
  · simp only [Transform3D.apply_to, Transform3D.new_trs,
      CachedRotation3D.new, CachedRotation3D.rotate, Vec3D.mul, Vec3D.add,
      List.map_cons, List.map_nil, Real.sin_zero, Real.cos_zero]
    norm_num

/-- Claim C5: composition of two `Transform3D`s is commutative, with the
composed translation the componentwise sum of the translations, the
composed rotation the componentwise sum of the rotations, and the
composed scale the componentwise product of the scales. -/
theorem transform_mul_commutative :
    ∀ a b : Transform3D,
      a.mul b = b.mul a
      ∧ (a.mul b).translation = a.translation.add b.translation
      ∧ (a.mul b).rotation = a.rotation.add b.rotation
      ∧ (a.mul b).scale = a.scale.mul b.scale := by
  intro a b
  refine ⟨?_, rfl, rfl, rfl⟩
  ext <;> simp [Transform3D.mul, Transform3D.new_trs, Vec3D.add, Vec3D.mul] <;>
    ring

/-- Claim C6: applying a `Transform3D` to a single `Vec3D` through the
`Mul` operator gives the same vertex as `apply_to` on the one-element
batch. -/
theorem transform_mulVec_matches_apply_to :
    ∀ (t : Transform3D) (v : Vec3D), t.apply_to [v] = [t.mulVec v] := by
  intro t v
  rfl

/-- Claim C7: a `VisibilityToggle` with the flag false yields the empty
sequence, with the flag true yields exactly the wrapped element's
`active_pixels()`, and flipping the flag to false and back to true
yields the delegate's original output on the very next query. -/
theorem visibility_toggle_gating :
    ∀ {T : Type} [inst : ViewElement T] (element : T) (visible : Bool),
      active_pixels (VisibilityToggle.new element false) = []
      ∧ active_pixels (VisibilityToggle.new element true)
        = active_pixels element
      ∧ active_pixels
          { { VisibilityToggle.new element visible with visible := false }
              with visible := true } = active_pixels element := by
  intro T inst element visible
  exact ⟨rfl, rfl, rfl⟩

/-- Claim C8: after `PixelContainer::append(source)`, the source is
empty and the destination's pixel list is its original content followed
by the source's original content in order, its length the sum of both
original lengths. -/
theorem pixel_container_append_spec :
    ∀ (dest : PixelContainer) (source : List Point),
      (dest.append source).2 = []
      ∧ (dest.append source).1.pixels = dest.pixels ++ source
      ∧ (dest.append source).1.pixels.length
        = dest.pixels.length + source.length
      ∧ (dest.append source).1.pixels.drop dest.pixels.length = source := by
  intro dest source
  refine ⟨rfl, rfl, ?_, ?_⟩ <;> simp [PixelContainer.append]

/-- Claim C4: the start code is suppressed exactly when the previous
modifier equals the current cell's, the end code exactly when the next
modifier equals the current cell's, and a boundary cell with no
previous and no next emits both codes; `write_with_prev_and_next`
appends the same emission to its buffer. -/
theorem colchar_emission_elision :
    ∀ (c : ColChar) (prev_mod next_mod : Option Modifier) (i : Nat)
      (o : List Char),
      c.display_with_prev_and_next prev_mod next_mod i
        = (if prev_mod = some c.modifier then ([] : List Char)
            else c.modifier.display)
          ++ [c.text_char]
          ++ (if next_mod = some c.modifier then ([] : List Char)
            else Modifier.END.display)
      ∧ c.write_with_prev_and_next o prev_mod next_mod i
        = o ++ c.display_with_prev_and_next prev_mod next_mod i
      ∧ c.display_with_prev_and_next Option.none Option.none i
        = c.modifier.display ++ [c.text_char] ++ Modifier.END.display := by
  intro c prev_mod next_mod i o
  refine ⟨?_, ?_, ?_⟩
  · unfold ColChar.display_with_prev_and_next
    by_cases h1 : prev_mod = some c.modifier <;>
      by_cases h2 : next_mod = some c.modifier <;>
        simp [h1, h2, Modifier.display]
  · unfold ColChar.display_with_prev_and_next ColChar.write_with_prev_and_next
    simp
  · unfold ColChar.display_with_prev_and_next
    simp

/-- Claim C9: three consecutive cells sharing one modifier, emitted with
their neighbours' modifiers (no previous before the first, no next
after the last), produce exactly one leading start code, each cell's
character once in original order, and one trailing end code. -/
theorem run_emission_three_cells :
    ∀ (m : Modifier) (ch1 ch2 ch3 : Char) (i1 i2 i3 : Nat),
      ColChar.write_with_prev_and_next ⟨ch3, m⟩
        (ColChar.write_with_prev_and_next ⟨ch2, m⟩
          (ColChar.write_with_prev_and_next ⟨ch1, m⟩ [] Option.none (some m) i1)
          (some m) (some m) i2)
        (some m) Option.none i3
      = m.display ++ [ch1, ch2, ch3] ++ Modifier.END.display := by
  intro m ch1 ch2 ch3 i1 i2 i3
  simp [ColChar.write_with_prev_and_next, Modifier.display]

/-- Claim C10: a `PixelContainer` built from a point vector reports
exactly that vector as its active pixels, and `active_pixels()` always
returns the currently stored pixel list. -/
theorem pixel_container_from_and_query :
    ∀ (v : List Point) (c : PixelContainer),
      active_pixels (PixelContainer.fromPoints v) = v
      ∧ active_pixels c = c.pixels := by
  intro v c
  exact ⟨rfl, rfl⟩
